import Mathlib

/-!
Verification development for the ibp-geodns-libs coordination core.

The Go source is shallowly embedded: Go maps become association lists
(`List (κ × α)`) with lookup / set / erase operations, `time.Time` becomes
`Nat` (abstract clock units, `0` = the zero time), and the stateful handlers
of the consensus engine, cluster registry, usage scatter/gather and outage
notifier become pure state-passing functions.  Each definition is translated
from the corresponding Go function and keeps its name where Lean allows it.
-/

namespace IbpGeoDns

/-! ## Association lists modelling Go maps -/

/-- Lookup in an association list: the value stored under key `k`
(Go `m[k]` with the `ok` flag as `Option`). -/
def alookup {κ α : Type} [DecidableEq κ] : List (κ × α) → κ → Option α
  | [], _ => none
  | (k', v) :: t, k => if k' = k then some v else alookup t k

/-- Store `v` under key `k` (Go `m[k] = v`): replaces the first binding of
`k` if present, otherwise appends a new binding. -/
def aset {κ α : Type} [DecidableEq κ] : List (κ × α) → κ → α → List (κ × α)
  | [], k, v => [(k, v)]
  | (k', v') :: t, k, v => if k' = k then (k, v) :: t else (k', v') :: aset t k v

/-- Remove every binding of key `k` (Go `delete(m, k)`). -/
def aerase {κ α : Type} [DecidableEq κ] (l : List (κ × α)) (k : κ) : List (κ × α) :=
  l.filter (fun p => !(p.1 = k : Bool))

@[simp] theorem alookup_nil {κ α : Type} [DecidableEq κ] (k : κ) :
    alookup ([] : List (κ × α)) k = none := rfl

@[simp] theorem alookup_cons {κ α : Type} [DecidableEq κ]
    (p : κ × α) (t : List (κ × α)) (k : κ) :
    alookup (p :: t) k = if p.1 = k then some p.2 else alookup t k := by
  cases p
  rfl

@[simp] theorem aset_nil {κ α : Type} [DecidableEq κ] (k : κ) (v : α) :
    aset ([] : List (κ × α)) k v = [(k, v)] := rfl

@[simp] theorem aset_cons {κ α : Type} [DecidableEq κ]
    (p : κ × α) (t : List (κ × α)) (k : κ) (v : α) :
    aset (p :: t) k v = if p.1 = k then (k, v) :: t else p :: aset t k v := by
  cases p
  rfl

@[simp] theorem alookup_aset_self {κ α : Type} [DecidableEq κ]
    (l : List (κ × α)) (k : κ) (v : α) : alookup (aset l k v) k = some v := by
  induction l with
  | nil => simp
  | cons h t ih =>
    by_cases hk : h.1 = k
    · simp [hk]
    · simp [hk, ih]

theorem alookup_aset_ne {κ α : Type} [DecidableEq κ]
    (l : List (κ × α)) (k k' : κ) (v : α) (h : k' ≠ k) :
    alookup (aset l k v) k' = alookup l k' := by
  have hkk : ¬(k = k') := fun e => h e.symm
  induction l with
  | nil => simp [hkk]
  | cons hd t ih =>
    by_cases hk : hd.1 = k
    · simp [hk, hkk]
    · simp [hk, ih]

theorem aset_aset_same {κ α : Type} [DecidableEq κ]
    (l : List (κ × α)) (k : κ) (a b : α) : aset (aset l k a) k b = aset l k b := by
  induction l with
  | nil => simp
  | cons h t ih =>
    by_cases hk : h.1 = k
    · simp [hk]
    · simp [hk, ih]

theorem aset_lookup_eq {κ α : Type} [DecidableEq κ]
    (l : List (κ × α)) (k : κ) (v : α) (h : alookup l k = some v) :
    aset l k v = l := by
  induction l with
  | nil => simp at h
  | cons hd t ih =>
    by_cases hk : hd.1 = k
    · simp only [alookup_cons, if_pos hk] at h
      cases h
      cases hd
      simp_all
    · simp only [alookup_cons, if_neg hk] at h
      simp [hk, ih h]

@[simp] theorem alookup_aerase_self {κ α : Type} [DecidableEq κ]
    (l : List (κ × α)) (k : κ) : alookup (aerase l k) k = none := by
  induction l with
  | nil => rfl
  | cons hd t ih =>
    by_cases hk : hd.1 = k
    · simpa [aerase, List.filter_cons, hk] using ih
    · simpa [aerase, List.filter_cons, hk] using ih

theorem alookup_append_single {κ α : Type} [DecidableEq κ]
    (l : List (κ × α)) (k k' : κ) (v : α) :
    alookup (l ++ [(k, v)]) k' =
      match alookup l k' with
      | some w => some w
      | none => if k = k' then some v else none := by
  induction l with
  | nil => simp
  | cons hd t ih =>
    by_cases hk : hd.1 = k'
    · simp [List.cons_append, hk]
    · simp [List.cons_append, hk, ih]

theorem alookup_none_not_mem_keys {κ α : Type} [DecidableEq κ]
    (l : List (κ × α)) (k : κ) (h : alookup l k = none) :
    k ∉ l.map Prod.fst := by
  induction l with
  | nil => simp
  | cons hd t ih =>
    by_cases hk : hd.1 = k
    · simp [hk] at h
    · simp only [alookup_cons, if_neg hk] at h
      simp only [List.map_cons, List.mem_cons]
      rintro (rfl | hm)
      · exact hk rfl
      · exact ih h hm

theorem aset_keys_of_lookup_some {κ α : Type} [DecidableEq κ]
    (l : List (κ × α)) (k : κ) (v w : α) (h : alookup l k = some w) :
    (aset l k v).map Prod.fst = l.map Prod.fst := by
  induction l with
  | nil => simp at h
  | cons hd t ih =>
    by_cases hk : hd.1 = k
    · simp [hk]
    · simp only [alookup_cons, if_neg hk] at h
      simp [hk, ih h]

/-! ## Cluster registry (nats cluster file: `NodeInfo`, `IsNodeActive`,
`CountActiveMonitors`, `markNodeHeard`, `addNode`, `guessRoleFromID`) -/

/-- Go `NodeInfo`.  `lastHeard` is the `time.Time` field as abstract clock
units; `0` models the zero time (`LastHeard.IsZero()`). -/
structure NodeInfo where
  nodeID : String
  publicAddress : String := ""
  listenAddress : String := ""
  listenPort : String := ""
  nodeRole : String := ""
  lastHeard : Nat := 0
deriving DecidableEq

/-- The constant `activeNodeWindow = 10 * time.Minute`, in seconds. -/
def activeNodeWindow : Nat := 600

/-- Go `IsNodeActive`: non-empty id, non-zero last-heard, and heard within
the active window.  `time.Since` is `now - lastHeard`; for a future
`lastHeard` Go gets a negative duration (always `< window`) and Nat
subtraction truncates to `0 < window`, so the two agree. -/
def IsNodeActive (now : Nat) (n : NodeInfo) : Bool :=
  n.nodeID != "" && n.lastHeard != 0 && decide (now - n.lastHeard < activeNodeWindow)

/-- Go `CountActiveMonitors`: the number of registry entries with role
`IBPMonitor` that are currently active. -/
def CountActiveMonitors (now : Nat) (nodes : List (String × NodeInfo)) : Nat :=
  (nodes.filter (fun p => p.2.nodeRole == "IBPMonitor" && IsNodeActive now p.2)).length

/-- Whether `s` starts with the pattern `p` (character lists). -/
def startsWithList : List Char → List Char → Bool
  | [], _ => true
  | _ :: _, [] => false
  | p :: ps, c :: cs => p == c && startsWithList ps cs

/-- Whether the pattern occurs as a contiguous run of `s`. -/
def hasSubList : List Char → List Char → Bool
  | pat, [] => startsWithList pat []
  | pat, c :: cs => startsWithList pat (c :: cs) || hasSubList pat cs

/-- Case-insensitive substring test, modelling the Go regexes
`(?i)monitor` and `(?i)dns` (an ASCII lowercase pattern matched
case-insensitively against the id). -/
def containsSub (s pat : String) : Bool :=
  hasSubList pat.data (s.data.map Char.toLower)

/-- Go `guessRoleFromID`. -/
def guessRoleFromID (id : String) : String :=
  if containsSub id "monitor" then "IBPMonitor"
  else if containsSub id "dns" then "IBPDns"
  else ""

/-- Go `markNodeHeard`: no-op on an empty id; creates the entry with the
inferred role when absent; infers a role when the stored one is empty;
always stamps `lastHeard := now`. -/
def markNodeHeard (nodes : List (String × NodeInfo)) (id : String) (now : Nat) :
    List (String × NodeInfo) :=
  if id = "" then nodes
  else
    let n := (alookup nodes id).getD { nodeID := id }
    let n := if n.nodeRole = "" then { n with nodeRole := guessRoleFromID id } else n
    aset nodes id { n with lastHeard := now }

/-- Go `addNode`: insert when new; when the stored entry has an empty role
and the incoming one does not, the whole incoming `NodeInfo` (including its
`LastHeard`) replaces the stored entry; otherwise keep the stored entry. -/
def addNode (nodes : List (String × NodeInfo)) (n : NodeInfo) :
    List (String × NodeInfo) :=
  if n.nodeID = "" then nodes
  else
    match alookup nodes n.nodeID with
    | none => aset nodes n.nodeID n
    | some cur =>
      if cur.nodeRole = "" ∧ n.nodeRole ≠ "" then aset nodes n.nodeID n else nodes

/-! ## Consensus engine (consensus module: `decideLocked`, `HandleVote`,
`forceFinalize`, `finalize`, `HandleFinalize`, `checkLocalStatus`,
`voteOnProposal`) -/

/-- Go `core.Proposal`.  The free-form `Data map[string]interface{}` field
carries no structure the engine ever reads, so it is omitted. -/
structure Proposal where
  id : String
  senderNodeID : String
  checkType : String
  checkName : String
  memberName : String
  domainName : String
  endpoint : String
  proposedStatus : Bool
  errorText : String
  isIPv6 : Bool
  timestamp : Nat
deriving DecidableEq

/-- Go `core.ProposalTracking`.  The one-shot `*time.Timer` is modelled by
the pending duration of the scheduled finalize attempt (`none` = no timer
running / stopped). -/
structure ProposalTracking where
  proposal : Proposal
  votes : List (String × Bool)
  finalized : Bool := false
  passed : Bool := false
  timer : Option Nat := none
deriving DecidableEq

/-- Go `core.Vote`. -/
structure Vote where
  proposalID : String
  senderNodeID : String
  nodeID : String
  agree : Bool
  timestamp : Nat
deriving DecidableEq

/-- Go `core.FinalizeMessage`. -/
structure FinalizeMessage where
  proposal : Proposal
  passed : Bool
  decidedAt : Nat
deriving DecidableEq

/-- The part of Go `core.NodeState` the consensus engine reads and writes. -/
structure NodeState where
  nodeID : String
  clusterNodes : List (String × NodeInfo)
  proposals : List (String × ProposalTracking)
  proposalTimeout : Nat
deriving DecidableEq

/-- The constant `minConsensusVotes = 1` of the consensus module. -/
def minConsensusVotes : Nat := 1

/-- The tallying filter of `decideLocked`: a vote is counted only when its
`NodeID` resolves in `ClusterNodes` to a node with role `IBPMonitor` that
is currently active. -/
def isCountedMonitor (s : NodeState) (now : Nat) (nid : String) : Bool :=
  match alookup s.clusterNodes nid with
  | some node => node.nodeRole == "IBPMonitor" && IsNodeActive now node
  | none => false

/-- The `yes` counter of the tally loop in `decideLocked`: votes with
`Agree=true` whose `NodeID` is a currently active monitor. -/
def yesTally (s : NodeState) (now : Nat) (votes : List (String × Bool)) : Nat :=
  (votes.filter (fun v => isCountedMonitor s now v.1 && v.2)).length

/-- The `no` counter of the tally loop in `decideLocked`. -/
def noTally (s : NodeState) (now : Nat) (votes : List (String × Bool)) : Nat :=
  (votes.filter (fun v => isCountedMonitor s now v.1 && !v.2)).length

/-- Go `decideLocked`.  Returns the updated tracking entry and whether a
finalize is spawned (`go finalize(...)`).  With zero active monitors the
entry is returned untouched; otherwise the yes/no tallies over counted
votes are compared against `floor(total/2)+1` and `minConsensusVotes`;
on a decision the timer is stopped and a finalize is emitted. -/
def decideLocked (s : NodeState) (now : Nat) (pt : ProposalTracking) :
    ProposalTracking × Bool :=
  let total := CountActiveMonitors now s.clusterNodes
  if total = 0 then (pt, false)
  else
    let maj := total / 2 + 1
    let pt' :=
      if yesTally s now pt.votes ≥ maj ∧ yesTally s now pt.votes ≥ minConsensusVotes then
        { pt with finalized := true, passed := true }
      else if noTally s now pt.votes ≥ maj ∧ noTally s now pt.votes ≥ minConsensusVotes then
        { pt with finalized := true, passed := false }
      else pt
    if pt'.finalized then ({ pt' with timer := none }, true) else (pt', false)

/-- Go `HandleVote` (after a successful unmarshal): mark the sender heard,
drop the vote when the proposal is unknown or finalized, otherwise record
`Votes[NodeID] = Agree` and re-evaluate via `decideLocked`.  The second
component reports whether a finalize was spawned. -/
def HandleVote (s : NodeState) (now : Nat) (v : Vote) : NodeState × Bool :=
  let s1 := { s with clusterNodes := markNodeHeard s.clusterNodes v.senderNodeID now }
  match alookup s1.proposals v.proposalID with
  | none => (s1, false)
  | some pt =>
    if pt.finalized then (s1, false)
    else
      let d := decideLocked s1 now { pt with votes := aset pt.votes v.nodeID v.agree }
      ({ s1 with proposals := aset s1.proposals v.proposalID d.1 }, d.2)

/-- Go `forceFinalize` (timeout path): when the proposal is still open, run
`decideLocked`; when no decision was reached, reschedule another finalize
attempt of duration `ProposalTimeout`. -/
def forceFinalize (s : NodeState) (now : Nat) (pid : String) : NodeState × Bool :=
  match alookup s.proposals pid with
  | none => (s, false)
  | some pt =>
    if pt.finalized then (s, false)
    else
      let d := decideLocked s now pt
      let pt2 := if d.1.finalized then d.1 else { d.1 with timer := some s.proposalTimeout }
      ({ s with proposals := aset s.proposals pid pt2 }, d.2)

/-- Go `finalize` (on the deciding node): publish the `FinalizeMessage`,
invoke the finalize hook, and delete the tracking entry from `Proposals`. -/
def finalize (s : NodeState) (pt : ProposalTracking) (now : Nat) :
    NodeState × FinalizeMessage :=
  ({ s with proposals := aerase s.proposals pt.proposal.id },
   { proposal := pt.proposal, passed := pt.passed, decidedAt := now })

/-- Go `HandleFinalize` (on a recipient, after a successful unmarshal):
mark the sender heard and invoke the `OnFinalize` hook.  The hook
(`onConsensusFinalize` in the nats bridge) applies official results or
collator rows but never touches the `Proposals` map. -/
def HandleFinalize (s : NodeState) (now : Nat) (fm : FinalizeMessage) : NodeState :=
  { s with clusterNodes := markNodeHeard s.clusterNodes fm.proposal.senderNodeID now }

/-- The local result store consulted by `checkLocalStatus`, as an injected
capability: each query returns the Go `(found, status)` pair. -/
structure LocalStatusStore where
  siteStatus : String → String → Bool → Bool × Bool
  domainStatus : String → String → String → Bool → Bool × Bool
  endpointStatus : String → String → String → String → Bool → Bool × Bool

/-- Go `checkLocalStatus`: dispatch on the check type; any other string
falls to the default branch `(false, false)`. -/
def checkLocalStatus (st : LocalStatusStore)
    (checkType checkName memberName domainName endpoint : String) (isIPv6 : Bool) :
    Bool × Bool :=
  if checkType = "site" then st.siteStatus checkName memberName isIPv6
  else if checkType = "domain" then st.domainStatus checkName memberName domainName isIPv6
  else if checkType = "endpoint" then
    st.endpointStatus checkName memberName domainName endpoint isIPv6
  else (false, false)

/-- Go `voteOnProposal`: consult the local store; abstain (`none`, nothing
published) when the observation is not found, else publish a vote agreeing
iff the local status matches the proposed one. -/
def voteOnProposal (st : LocalStatusStore) (selfNodeID : String) (prop : Proposal)
    (now : Nat) : Option Vote :=
  let fs := checkLocalStatus st prop.checkType prop.checkName prop.memberName
      prop.domainName prop.endpoint prop.isIPv6
  if fs.1 = false then none
  else some { proposalID := prop.id, senderNodeID := selfNodeID, nodeID := selfNodeID,
              agree := fs.2 == prop.proposedStatus, timestamp := now }

/-! ## Usage scatter/gather (usage module: `HandleRequest`, `RequestAll`) -/

/-- Go `core.UsageRecord`.  `date` is the rendered form of the `time.Time`
field (the aggregation key formats it with `%s`). -/
structure UsageRecord where
  date : String
  nodeID : String
  domain : String
  memberName : String
  asn : String
  networkName : String
  countryCode : String
  countryName : String
  isIPv6 : Bool
  hits : Int
deriving DecidableEq

/-- Go `core.UsageRequest`. -/
structure UsageRequest where
  startDate : String
  endDate : String
  domain : String
  memberName : String
  country : String
deriving DecidableEq

/-- Go `core.UsageResponse`. -/
structure UsageResponse where
  nodeID : String
  usageRecords : List UsageRecord
  error : String
deriving DecidableEq

/-- Lexicographic strict order on character lists, by code point.  UTF-8
byte order and code-point order coincide, so this is the Go `<` on strings. -/
def listStrLt : List Char → List Char → Bool
  | _, [] => false
  | [], _ :: _ => true
  | c :: cs, d :: ds =>
    if c.toNat < d.toNat then true
    else if d.toNat < c.toNat then false
    else listStrLt cs ds

/-- Go `a > b` on strings. -/
def stringGt (a b : String) : Bool := listStrLt b.data a.data

/-- Go `HandleRequest` (the usage responder).  Inputs: the parse outcome of
the request payload (`none` = unmarshal error), the reply inbox, and the
outcome of `retrieveLocalUsageRecords` as an injected capability.  The
result is the message published: `some (subject, response)`, or `none`
when nothing is sent (empty reply inbox and, on the broadcast path, an
empty data subject). -/
def HandleRequest (nodeID usageDataSubject reply : String)
    (parsed : Option UsageRequest)
    (fetch : UsageRequest → Except String (List UsageRecord)) :
    Option (String × UsageResponse) :=
  match parsed with
  | none =>
    if reply ≠ "" then
      some (reply, { nodeID := nodeID, usageRecords := [], error := "unmarshal error" })
    else none
  | some req =>
    if stringGt req.startDate req.endDate then
      if reply ≠ "" then
        some (reply, { nodeID := nodeID, usageRecords := [],
                       error := "StartDate must be before or equal to EndDate" })
      else none
    else
      let records := match fetch req with
        | .ok recs => recs
        | .error _ => []
      let resp : UsageResponse := { nodeID := nodeID, usageRecords := records, error := "" }
      if reply ≠ "" then some (reply, resp)
      else if usageDataSubject ≠ "" then some (usageDataSubject, resp)
      else none

/-- The aggregation key of `RequestAll`:
`fmt.Sprintf("%s|%s|%s|%s|%s|%s|%s", Date, Domain, MemberName, CountryCode,
Asn, NetworkName, CountryName)`. -/
def recKey (r : UsageRecord) : String :=
  String.intercalate "|"
    [r.date, r.domain, r.memberName, r.countryCode, r.asn, r.networkName, r.countryName]

/-- The response-collection step of `RequestAll`: the first response per
origin `NodeID` wins, later responses from the same origin are dropped. -/
def collectResponses (rs : List UsageResponse) : List (String × List UsageRecord) :=
  rs.foldl
    (fun m resp =>
      if (alookup m resp.nodeID).isSome then m
      else m ++ [(resp.nodeID, resp.usageRecords)])
    []

/-- One step of the aggregation loop of `RequestAll`: merge a record into
`aggregateMap`, summing `Hits` on an existing key. -/
def addRecToAggregate (agg : List (String × UsageRecord)) (rec : UsageRecord) :
    List (String × UsageRecord) :=
  match alookup agg (recKey rec) with
  | some existing => aset agg (recKey rec) { existing with hits := existing.hits + rec.hits }
  | none => agg ++ [(recKey rec, rec)]

/-- The aggregation loop of `RequestAll` over the collected response map. -/
def aggregateUsage (m : List (String × List UsageRecord)) : List (String × UsageRecord) :=
  m.foldl (fun agg entry => entry.2.foldl addRecToAggregate agg) []

/-- The pure content of `RequestAll`: collect responses (first per origin
wins), aggregate by key summing hits, and return the merged records. -/
def RequestAllAggregate (rs : List UsageResponse) : List UsageRecord :=
  (aggregateUsage (collectResponses rs)).map Prod.snd

/-! ## Idempotent usage persistence (data2 `UpsertUsage`) -/

/-- The primary key of the data2 `requests` table, from the comment on
`UpsertUsage`: date, node_id, domain_name, member_name, network_asn,
network_name, country_code, country_name, is_ipv6.  String columns pass
through `nullOrEmpty` (empty string ↦ SQL NULL) and the ipv6 flag is the
0/1 integer the query binds. -/
structure RequestsKey where
  date : String
  nodeID : String
  domain : Option String
  memberName : Option String
  asn : Option String
  networkName : Option String
  countryCode : Option String
  countryName : Option String
  isIPv6 : Nat
deriving DecidableEq

/-- Go `nullOrEmpty`. -/
def nullOrEmpty (s : String) : Option String :=
  if s = "" then none else some s

/-- The key row a `UsageRecord` binds in the data2 upsert. -/
def requestsKey (r : UsageRecord) : RequestsKey :=
  { date := r.date
    nodeID := r.nodeID
    domain := nullOrEmpty r.domain
    memberName := nullOrEmpty r.memberName
    asn := nullOrEmpty r.asn
    networkName := nullOrEmpty r.networkName
    countryCode := nullOrEmpty r.countryCode
    countryName := nullOrEmpty r.countryName
    isIPv6 := if r.isIPv6 then 1 else 0 }

/-- Go data2 `UpsertUsage`: `INSERT ... ON DUPLICATE KEY UPDATE
hits = VALUES(hits)` over the `requests` table — on a key conflict the
stored `hits` is REPLACED by the incoming value, otherwise a new row is
inserted. -/
def UpsertUsage (table : List (RequestsKey × Int)) (r : UsageRecord) :
    List (RequestsKey × Int) :=
  match alookup table (requestsKey r) with
  | some _ => aset table (requestsKey r) r.hits
  | none => table ++ [(requestsKey r, r.hits)]

/-! ## Outage notifier (matrix `NotifyMemberOffline`)

The notification map entry for one outage key: `none` = absent,
`some ""` = the in-flight sentinel stored by `LoadOrStore`, `some e` = the
`MessageID` of the announced alert.  A call to `NotifyMemberOffline` is
split at its only interleaving point into a `start` (the `LoadOrStore`)
and, for the winning announcer, a `finish` carrying the send outcome. -/

structure NotifierState where
  entry : Option String
  announcing : Option Nat
  sentCount : Nat
deriving DecidableEq

/-- One phase of a `NotifyMemberOffline` call by caller `pid`:
`start` is the `LoadOrStore(key, sentinel)` step — a caller that finds any
prior value returns without sending; `finish pid (some e)` is a successful
send storing `MessageID = e`; `finish pid none` is a failed send deleting
the key so a later attempt may retry. -/
inductive OfflineAction where
  | start (pid : Nat)
  | finish (pid : Nat) (outcome : Option String)
deriving DecidableEq

/-- The effect of one phase on the entry for a fixed outage key.
`sentCount` counts messages successfully sent for the key. -/
def offlineStep (s : NotifierState) (a : OfflineAction) : NotifierState :=
  match a with
  | .start pid =>
    match s.entry with
    | some _ => s
    | none => { s with entry := some "", announcing := some pid }
  | .finish pid outcome =>
    if s.announcing = some pid then
      match outcome with
      | some evID => { entry := some evID, announcing := none, sentCount := s.sentCount + 1 }
      | none => { entry := none, announcing := none, sentCount := s.sentCount }
    else s

/-- The key starts absent (no prior OFFLINE stored, as after an ONLINE
clear or at process start). -/
def initNotifier : NotifierState :=
  { entry := none, announcing := none, sentCount := 0 }

/-- Run a sequence of `NotifyMemberOffline` phases for one outage key with
no intervening `NotifyMemberOnline`. -/
def runOffline (acts : List OfflineAction) : NotifierState :=
  acts.foldl offlineStep initNotifier

/-! ## Structural lemmas about the consensus step -/

/-- Normal form of `decideLocked`: the four outcomes of the decision
switch, written out. -/
theorem decideLocked_eq (s : NodeState) (now : Nat) (pt : ProposalTracking) :
    decideLocked s now pt =
      if CountActiveMonitors now s.clusterNodes = 0 then (pt, false)
      else if yesTally s now pt.votes ≥ CountActiveMonitors now s.clusterNodes / 2 + 1
          ∧ yesTally s now pt.votes ≥ minConsensusVotes then
        ({ pt with finalized := true, passed := true, timer := none }, true)
      else if noTally s now pt.votes ≥ CountActiveMonitors now s.clusterNodes / 2 + 1
          ∧ noTally s now pt.votes ≥ minConsensusVotes then
        ({ pt with finalized := true, passed := false, timer := none }, true)
      else if pt.finalized then ({ pt with timer := none }, true) else (pt, false) := by
  unfold decideLocked
  dsimp only
  split
  · rfl
  · split
    · rfl
    · split
      · rfl
      · rfl

theorem decideLocked_votes_eq (s : NodeState) (now : Nat) (pt : ProposalTracking) :
    (decideLocked s now pt).1.votes = pt.votes := by
  rw [decideLocked_eq]
  split
  · rfl
  · split
    · rfl
    · split
      · rfl
      · split <;> rfl

theorem decideLocked_finalized_mono (s : NodeState) (now : Nat) (pt : ProposalTracking)
    (h : (decideLocked s now pt).1.finalized = false) : (decideLocked s now pt).1 = pt := by
  rw [decideLocked_eq] at h ⊢
  by_cases h0 : CountActiveMonitors now s.clusterNodes = 0
  · rw [if_pos h0]
  · rw [if_neg h0] at h ⊢
    by_cases hy : yesTally s now pt.votes ≥ CountActiveMonitors now s.clusterNodes / 2 + 1
        ∧ yesTally s now pt.votes ≥ minConsensusVotes
    · rw [if_pos hy] at h
      simp at h
    · rw [if_neg hy] at h ⊢
      by_cases hn : noTally s now pt.votes ≥ CountActiveMonitors now s.clusterNodes / 2 + 1
          ∧ noTally s now pt.votes ≥ minConsensusVotes
      · rw [if_pos hn] at h
        simp at h
      · rw [if_neg hn] at h ⊢
        by_cases hf : pt.finalized = true
        · rw [if_pos hf] at h
          simp [hf] at h
        · rw [if_neg hf]

/-- C1 helper: the fixture state for the witness — one active monitor. -/
def exMonitor : NodeInfo :=
  { nodeID := "monitor-a", nodeRole := "IBPMonitor", lastHeard := 100 }

def exProposal : Proposal :=
  { id := "p1", senderNodeID := "monitor-a", checkType := "site", checkName := "ssl",
    memberName := "m1", domainName := "", endpoint := "", proposedStatus := false,
    errorText := "down", isIPv6 := false, timestamp := 90 }

/-- C1: whenever `decideLocked` finalizes an open tracking entry with
`Passed=true`, the number of recorded `Agree=true` votes whose `NodeID` is a
currently active monitor is at least `floor(total/2)+1`, where `total` is
the count of active monitors at decision time; votes from node ids that are
unknown, inactive, or not of role `IBPMonitor` are excluded from the tally
(the tally counts exactly the votes passing `isCountedMonitor`). -/
theorem decideLocked_passed_has_majority (s : NodeState) (now : Nat) (pt : ProposalTracking)
    (hopen : pt.finalized = false)
    (hfin : (decideLocked s now pt).1.finalized = true)
    (hpass : (decideLocked s now pt).1.passed = true) :
    yesTally s now pt.votes ≥ CountActiveMonitors now s.clusterNodes / 2 + 1
    ∧ yesTally s now pt.votes
        = (pt.votes.filter
            (fun v => isCountedMonitor s now v.1 && v.2)).length := by
  refine ⟨?_, rfl⟩
  rw [decideLocked_eq] at hfin hpass
  by_cases h0 : CountActiveMonitors now s.clusterNodes = 0
  · rw [if_pos h0] at hfin
    rw [hopen] at hfin
    simp at hfin
  · rw [if_neg h0] at hfin hpass
    by_cases hy : yesTally s now pt.votes ≥ CountActiveMonitors now s.clusterNodes / 2 + 1
        ∧ yesTally s now pt.votes ≥ minConsensusVotes
    · exact hy.1
    · rw [if_neg hy] at hfin hpass
      by_cases hn : noTally s now pt.votes ≥ CountActiveMonitors now s.clusterNodes / 2 + 1
          ∧ noTally s now pt.votes ≥ minConsensusVotes
      · rw [if_pos hn] at hpass
        simp at hpass
      · rw [if_neg hn] at hfin
        simp [hopen] at hfin

/-- C1 witness: a single active monitor voting Agree finalizes with
`Passed=true` and the counted Agree votes meet the majority bound. -/
theorem decideLocked_passed_has_majority_witness :
    let s : NodeState :=
      { nodeID := "monitor-a", clusterNodes := [("monitor-a", exMonitor)],
        proposals := [], proposalTimeout := 30 }
    let pt : ProposalTracking :=
      { proposal := exProposal, votes := [("monitor-a", true)] }
    pt.finalized = false
    ∧ (decideLocked s 100 pt).1.finalized = true
    ∧ (decideLocked s 100 pt).1.passed = true
    ∧ (yesTally s 100 pt.votes ≥ CountActiveMonitors 100 s.clusterNodes / 2 + 1
        ∧ yesTally s 100 pt.votes
            = (pt.votes.filter
                (fun v => isCountedMonitor s 100 v.1 && v.2)).length) :=
  ⟨by decide, by decide, by decide,
   decideLocked_passed_has_majority _ 100 _ (by decide) (by decide) (by decide)⟩

/-- C2: while the count of active monitors is 0, a decision step never
finalizes and never emits a finalize: `decideLocked` returns the entry
untouched with no emission, and the timeout path `forceFinalize` emits
nothing, leaves the `Finalized` flag of every entry unchanged, and reschedules
another timeout attempt of duration `ProposalTimeout` for the proposal. -/
theorem zero_monitors_defer_and_reschedule (s : NodeState) (now : Nat)
    (pt : ProposalTracking) (pid : String)
    (h0 : CountActiveMonitors now s.clusterNodes = 0)
    (hopen : pt.finalized = false)
    (hlook : alookup s.proposals pid = some pt) :
    decideLocked s now pt = (pt, false)
    ∧ (forceFinalize s now pid).2 = false
    ∧ alookup (forceFinalize s now pid).1.proposals pid
        = some { pt with timer := some s.proposalTimeout }
    ∧ ∀ q, (alookup (forceFinalize s now pid).1.proposals q).map ProposalTracking.finalized
        = (alookup s.proposals q).map ProposalTracking.finalized := by
  have hd : decideLocked s now pt = (pt, false) := by
    rw [decideLocked_eq, if_pos h0]
  have hff : forceFinalize s now pid =
      ({ s with proposals := aset s.proposals pid { pt with timer := some s.proposalTimeout } },
        false) := by
    simp only [forceFinalize, hlook, hopen, hd]
    simp
  refine ⟨hd, ?_, ?_, ?_⟩
  · rw [hff]
  · rw [hff]
    simp
  · intro q
    rw [hff]
    by_cases hq : q = pid
    · subst hq
      simp [hlook]
    · simp only []
      rw [alookup_aset_ne _ _ _ _ hq]

/-- C2 witness: a state with no cluster nodes and one open proposal. -/
theorem zero_monitors_defer_and_reschedule_witness :
    let pt : ProposalTracking := { proposal := exProposal, votes := [], timer := some 30 }
    let s : NodeState :=
      { nodeID := "mon-1", clusterNodes := [], proposals := [("p1", pt)],
        proposalTimeout := 30 }
    CountActiveMonitors 100 s.clusterNodes = 0
    ∧ pt.finalized = false
    ∧ alookup s.proposals "p1" = some pt
    ∧ (decideLocked s 100 pt = (pt, false)
        ∧ (forceFinalize s 100 "p1").2 = false
        ∧ alookup (forceFinalize s 100 "p1").1.proposals "p1"
            = some { pt with timer := some s.proposalTimeout }
        ∧ ∀ q, (alookup (forceFinalize s 100 "p1").1.proposals q).map ProposalTracking.finalized
            = (alookup s.proposals q).map ProposalTracking.finalized) :=
  ⟨by decide, by decide, by decide,
   zero_monitors_defer_and_reschedule _ 100 _ "p1" (by decide) (by decide) (by decide)⟩

/-- C9: for a proposal whose `CheckType` is none of "site", "domain",
"endpoint", `checkLocalStatus` reports not-found, `voteOnProposal`
publishes nothing, and a tracking entry that has accrued no votes is never
finalized by `decideLocked` (so only garbage collection removes it). -/
theorem unknown_checktype_never_voted (st : LocalStatusStore)
    (cn mn dn ep : String) (v6 : Bool) (self : String) (prop : Proposal) (now : Nat)
    (s : NodeState) (pt : ProposalTracking)
    (h1 : prop.checkType ≠ "site") (h2 : prop.checkType ≠ "domain")
    (h3 : prop.checkType ≠ "endpoint")
    (hv : pt.votes = []) (hf : pt.finalized = false) :
    checkLocalStatus st prop.checkType cn mn dn ep v6 = (false, false)
    ∧ voteOnProposal st self prop now = none
    ∧ decideLocked s now pt = (pt, false) := by
  refine ⟨by simp [checkLocalStatus, h1, h2, h3], ?_, ?_⟩
  · simp [voteOnProposal, checkLocalStatus, h1, h2, h3]
  · have hyt : yesTally s now pt.votes = 0 := by simp [yesTally, hv]
    have hnt : noTally s now pt.votes = 0 := by simp [noTally, hv]
    rw [decideLocked_eq]
    by_cases h0 : CountActiveMonitors now s.clusterNodes = 0
    · rw [if_pos h0]
    · rw [if_neg h0, if_neg (by simp [hyt, minConsensusVotes]),
        if_neg (by simp [hnt, minConsensusVotes]), if_neg (by simp [hf])]

/-- C9 witness: a proposal of check type "http" in a cluster with one
active monitor and a voteless open tracking entry. -/
theorem unknown_checktype_never_voted_witness :
    let st : LocalStatusStore :=
      { siteStatus := fun _ _ _ => (true, true)
        domainStatus := fun _ _ _ _ => (true, true)
        endpointStatus := fun _ _ _ _ _ => (true, true) }
    let prop : Proposal := { exProposal with checkType := "http" }
    let pt : ProposalTracking := { proposal := prop, votes := [] }
    let s : NodeState :=
      { nodeID := "monitor-a", clusterNodes := [("monitor-a", exMonitor)],
        proposals := [("p1", pt)], proposalTimeout := 30 }
    prop.checkType ≠ "site" ∧ prop.checkType ≠ "domain" ∧ prop.checkType ≠ "endpoint"
    ∧ pt.votes = [] ∧ pt.finalized = false
    ∧ (checkLocalStatus st prop.checkType "c" "m" "d" "e" false = (false, false)
        ∧ voteOnProposal st "monitor-a" prop 100 = none
        ∧ decideLocked s 100 pt = (pt, false)) :=
  ⟨by decide, by decide, by decide, by decide, by decide,
   unknown_checktype_never_voted _ "c" "m" "d" "e" false "monitor-a" _ 100 _ _
     (by decide) (by decide) (by decide) (by decide) (by decide)⟩

/-- Unfolding lemma: `HandleVote` on a known, open proposal records the
vote under `Votes[NodeID]` and re-evaluates via `decideLocked`. -/
theorem HandleVote_open (s : NodeState) (now : Nat) (v : Vote) (pt : ProposalTracking)
    (hlook : alookup s.proposals v.proposalID = some pt) (hopen : pt.finalized = false) :
    (HandleVote s now v).1 =
      { s with
        clusterNodes := markNodeHeard s.clusterNodes v.senderNodeID now
        proposals := aset s.proposals v.proposalID
          (decideLocked
            { s with clusterNodes := markNodeHeard s.clusterNodes v.senderNodeID now }
            now { pt with votes := aset pt.votes v.nodeID v.agree }).1 } := by
  unfold HandleVote
  dsimp only
  rw [hlook]
  dsimp only
  rw [if_neg (by simp [hopen])]

/-- C10 fixtures: one active monitor, one open proposal, two conflicting
votes from the same node. -/
def c10pt : ProposalTracking := { proposal := exProposal, votes := [], timer := some 30 }

def c10s : NodeState :=
  { nodeID := "monitor-a", clusterNodes := [("monitor-a", exMonitor)],
    proposals := [("p1", c10pt)], proposalTimeout := 30 }

def c10v1 : Vote :=
  { proposalID := "p1", senderNodeID := "monitor-a", nodeID := "monitor-a",
    agree := true, timestamp := 100 }

def c10v2 : Vote := { c10v1 with agree := false }

/-- C10 counterexample: with a single active monitor, the first vote
finalizes the proposal, so the second vote from the same node is dropped
and the stored `Votes` map differs from the one obtained by processing
only the second vote — the claimed overwrite equality fails. -/
theorem handleVote_revote_not_overwritten :
    (alookup (HandleVote (HandleVote c10s 100 c10v1).1 100 c10v2).1.proposals "p1").map
        ProposalTracking.votes
      = some [("monitor-a", true)]
    ∧ (alookup (HandleVote c10s 100 c10v2).1.proposals "p1").map ProposalTracking.votes
      = some [("monitor-a", false)]
    ∧ (alookup (HandleVote (HandleVote c10s 100 c10v1).1 100 c10v2).1.proposals "p1").map
        ProposalTracking.votes
      ≠ (alookup (HandleVote c10s 100 c10v2).1.proposals "p1").map ProposalTracking.votes := by
  refine ⟨by decide, by decide, by decide⟩

/-- C10 (amended): provided the first vote leaves the entry non-finalized,
processing two votes from the same node via `HandleVote` leaves the same
`Votes` map as processing only the second — the later vote overwrites the
earlier one under the node key, so each node holds at most one vote. -/
theorem handleVote_revote_overwrites_when_open (s : NodeState) (now : Nat)
    (v1 v2 : Vote) (pid : String) (pt : ProposalTracking)
    (hlook : alookup s.proposals pid = some pt) (hopen : pt.finalized = false)
    (h1 : v1.proposalID = pid) (h2 : v2.proposalID = pid) (hn : v1.nodeID = v2.nodeID)
    (hnofin : (alookup (HandleVote s now v1).1.proposals pid).map ProposalTracking.finalized
        = some false) :
    (alookup (HandleVote (HandleVote s now v1).1 now v2).1.proposals pid).map
        ProposalTracking.votes
      = (alookup (HandleVote s now v2).1.proposals pid).map ProposalTracking.votes
    ∧ (alookup (HandleVote (HandleVote s now v1).1 now v2).1.proposals pid).map
        ProposalTracking.votes
      = some (aset pt.votes v2.nodeID v2.agree) := by
  have hlook1 : alookup s.proposals v1.proposalID = some pt := by rw [h1]; exact hlook
  have hlook2 : alookup s.proposals v2.proposalID = some pt := by rw [h2]; exact hlook
  have hA := HandleVote_open s now v1 pt hlook1 hopen
  set sM : NodeState :=
    { s with clusterNodes := markNodeHeard s.clusterNodes v1.senderNodeID now } with hsM
  set d1 : ProposalTracking :=
    (decideLocked sM now { pt with votes := aset pt.votes v1.nodeID v1.agree }).1 with hd1
  have hA' : (HandleVote s now v1).1 =
      { s with clusterNodes := markNodeHeard s.clusterNodes v1.senderNodeID now
               proposals := aset s.proposals v1.proposalID d1 } := hA
  -- the entry after the first vote
  have hlookA : alookup (HandleVote s now v1).1.proposals pid = some d1 := by
    rw [hA']
    dsimp only
    rw [h1]
    exact alookup_aset_self _ _ _
  have hd1fin : d1.finalized = false := by
    rw [hlookA] at hnofin
    simpa using hnofin
  have hd1votes : d1.votes = aset pt.votes v1.nodeID v1.agree := by
    rw [hd1]
    exact decideLocked_votes_eq _ _ _
  -- second vote applied to the post-first-vote state
  have hlookA2 : alookup (HandleVote s now v1).1.proposals v2.proposalID = some d1 := by
    rw [h2]; exact hlookA
  have hB := HandleVote_open (HandleVote s now v1).1 now v2 d1 hlookA2 hd1fin
  set sM2 : NodeState :=
    { (HandleVote s now v1).1 with
      clusterNodes := markNodeHeard (HandleVote s now v1).1.clusterNodes v2.senderNodeID now }
    with hsM2
  set d2 : ProposalTracking :=
    (decideLocked sM2 now { d1 with votes := aset d1.votes v2.nodeID v2.agree }).1 with hd2
  have hlookB : alookup (HandleVote (HandleVote s now v1).1 now v2).1.proposals pid
      = some d2 := by
    rw [hB]
    dsimp only
    rw [hA']
    dsimp only
    rw [h2, h1]
    rw [aset_aset_same]
    exact alookup_aset_self _ _ _
  have hd2votes : d2.votes = aset pt.votes v2.nodeID v2.agree := by
    rw [hd2]
    rw [decideLocked_votes_eq]
    dsimp only
    rw [hd1votes, hn, aset_aset_same]
  -- only the second vote, applied to the original state
  have hC := HandleVote_open s now v2 pt hlook2 hopen
  set sM3 : NodeState :=
    { s with clusterNodes := markNodeHeard s.clusterNodes v2.senderNodeID now } with hsM3
  set d3 : ProposalTracking :=
    (decideLocked sM3 now { pt with votes := aset pt.votes v2.nodeID v2.agree }).1 with hd3
  have hlookC : alookup (HandleVote s now v2).1.proposals pid = some d3 := by
    rw [hC]
    dsimp only
    rw [h2]
    exact alookup_aset_self _ _ _
  have hd3votes : d3.votes = aset pt.votes v2.nodeID v2.agree := by
    rw [hd3]
    rw [decideLocked_votes_eq]
  refine ⟨?_, ?_⟩
  · rw [hlookB, hlookC]
    simp [hd2votes, hd3votes]
  · rw [hlookB]
    simp [hd2votes]

/-- C10 witness for the amended statement: three active monitors, so the
first vote does not reach the majority of two and the entry stays open. -/
theorem handleVote_revote_overwrites_when_open_witness :
    let m1 : NodeInfo := { nodeID := "monitor-a", nodeRole := "IBPMonitor", lastHeard := 100 }
    let m2 : NodeInfo := { nodeID := "monitor-b", nodeRole := "IBPMonitor", lastHeard := 100 }
    let m3 : NodeInfo := { nodeID := "monitor-c", nodeRole := "IBPMonitor", lastHeard := 100 }
    let pt : ProposalTracking := { proposal := exProposal, votes := [], timer := some 30 }
    let s : NodeState :=
      { nodeID := "monitor-a",
        clusterNodes := [("monitor-a", m1), ("monitor-b", m2), ("monitor-c", m3)],
        proposals := [("p1", pt)], proposalTimeout := 30 }
    alookup s.proposals "p1" = some pt
    ∧ pt.finalized = false
    ∧ c10v1.proposalID = "p1" ∧ c10v2.proposalID = "p1" ∧ c10v1.nodeID = c10v2.nodeID
    ∧ (alookup (HandleVote s 100 c10v1).1.proposals "p1").map ProposalTracking.finalized
        = some false
    ∧ ((alookup (HandleVote (HandleVote s 100 c10v1).1 100 c10v2).1.proposals "p1").map
          ProposalTracking.votes
        = (alookup (HandleVote s 100 c10v2).1.proposals "p1").map ProposalTracking.votes
      ∧ (alookup (HandleVote (HandleVote s 100 c10v1).1 100 c10v2).1.proposals "p1").map
          ProposalTracking.votes
        = some (aset pt.votes c10v2.nodeID c10v2.agree)) :=
  ⟨by decide, by decide, by decide, by decide, by decide, by decide,
   handleVote_revote_overwrites_when_open _ 100 c10v1 c10v2 "p1" _
     (by decide) (by decide) (by decide) (by decide) (by decide) (by decide)⟩

/-- C6 fixtures: a recipient node holding a tracking entry for the
finalized proposal. -/
def c6pt : ProposalTracking :=
  { proposal := exProposal, votes := [("monitor-a", true)] }

def c6s : NodeState :=
  { nodeID := "monitor-b", clusterNodes := [("monitor-a", exMonitor)],
    proposals := [("p1", c6pt)], proposalTimeout := 30 }

def c6fm : FinalizeMessage := { proposal := exProposal, passed := true, decidedAt := 100 }

/-- C6 counterexample: a recipient that handles a finalize message for a
proposal it tracks still holds the tracking entry afterwards — the entry
is not deleted on recipients. -/
theorem handleFinalize_keeps_recipient_entry :
    alookup (HandleFinalize c6s 100 c6fm).proposals "p1" = some c6pt := by decide

/-- C6 (amended): only the deciding node deletes its tracking entry (in
`finalize`, after publishing); `HandleFinalize` on a recipient marks the
sender heard and applies the finalize hook but leaves the `Proposals` map
unchanged — the recipient entry is only removed later by garbage
collection. -/
theorem finalize_deletes_only_on_decider (s : NodeState) (now : Nat)
    (fm : FinalizeMessage) (pt : ProposalTracking) :
    (HandleFinalize s now fm).proposals = s.proposals
    ∧ alookup (finalize s pt now).1.proposals pt.proposal.id = none :=
  ⟨rfl, by simp [finalize]⟩

/-- C8 counterexample fixture: a join payload carrying an older
`LastHeard` stamp and a concrete role for a node whose inferred role was
empty. -/
def c8join : NodeInfo :=
  { nodeID := "collator-1", nodeRole := "IBPCollator", lastHeard := 50 }

/-- C8 counterexample: `markNodeHeard` stores `LastHeard = 100`, then
`addNode` on a join whose payload has role `IBPCollator` (the stored role
was empty, "collator-1" matches neither monitor nor dns) replaces the
whole entry, regressing `LastHeard` to 50. -/
theorem addNode_regresses_lastHeard :
    (alookup (markNodeHeard [] "collator-1" 100) "collator-1").map NodeInfo.lastHeard
      = some 100
    ∧ (alookup (addNode (markNodeHeard [] "collator-1" 100) c8join) "collator-1").map
        NodeInfo.lastHeard = some 50 :=
  ⟨by decide, by decide⟩

/-- C8 (amended): `markNodeHeard` never regresses `LastHeard` (it stamps
the current time, which is at least the stored value whenever the clock
has not been read backwards), and `addNode` leaves an existing entry
untouched unless the stored role is empty and the incoming one is not —
only that role-upgrading replacement can adopt an older `LastHeard`. -/
theorem lastHeard_monotonic_outside_role_upgrade
    (nodes : List (String × NodeInfo)) (id : String) (now : Nat)
    (nid : String) (v v' : NodeInfo) (n cur : NodeInfo)
    (hv : alookup nodes nid = some v)
    (hv' : alookup (markNodeHeard nodes id now) nid = some v')
    (hclock : v.lastHeard ≤ now)
    (hcur : alookup nodes n.nodeID = some cur)
    (hkeep : cur.nodeRole ≠ "" ∨ n.nodeRole = "") :
    v.lastHeard ≤ v'.lastHeard ∧ addNode nodes n = nodes := by
  constructor
  · by_cases hid : id = ""
    · rw [markNodeHeard, if_pos hid] at hv'
      obtain rfl : v = v' := Option.some.inj (hv.symm.trans hv')
      exact le_rfl
    · rw [markNodeHeard, if_neg hid] at hv'
      dsimp only at hv'
      by_cases hnid : nid = id
      · subst hnid
        rw [alookup_aset_self] at hv'
        obtain rfl := Option.some.inj hv'
        simpa using hclock
      · rw [alookup_aset_ne _ _ _ _ hnid] at hv'
        obtain rfl : v = v' := Option.some.inj (hv.symm.trans hv')
        exact le_rfl
  · by_cases hnil : n.nodeID = ""
    · rw [addNode, if_pos hnil]
    · rw [addNode, if_neg hnil]
      rw [hcur]
      dsimp only
      rw [if_neg]
      rintro ⟨hcr, hnr⟩
      rcases hkeep with h | h
      · exact h hcr
      · exact hnr h

/-- C8 witness for the amended statement: marking an existing monitor
heard at a later time, and merging a join payload for a node whose stored
role is non-empty. -/
theorem lastHeard_monotonic_outside_role_upgrade_witness :
    let nodes : List (String × NodeInfo) := [("monitor-a", exMonitor)]
    let upd : NodeInfo := { exMonitor with lastHeard := 150 }
    alookup nodes "monitor-a" = some exMonitor
    ∧ alookup (markNodeHeard nodes "monitor-a" 200) "monitor-a"
        = some { exMonitor with lastHeard := 200 }
    ∧ exMonitor.lastHeard ≤ 200
    ∧ alookup nodes upd.nodeID = some exMonitor
    ∧ (exMonitor.nodeRole ≠ "" ∨ upd.nodeRole = "")
    ∧ (exMonitor.lastHeard ≤ ({ exMonitor with lastHeard := 200 } : NodeInfo).lastHeard
        ∧ addNode nodes upd = nodes) :=
  ⟨by decide, by decide, by decide, by decide, Or.inl (by decide),
   lastHeard_monotonic_outside_role_upgrade _ "monitor-a" 200 "monitor-a"
     exMonitor { exMonitor with lastHeard := 200 } { exMonitor with lastHeard := 150 }
     exMonitor (by decide) (by decide) (by decide) (by decide) (Or.inl (by decide))⟩

/-! ## C3: upsert replace semantics -/

theorem upsert_lookup_self (t : List (RequestsKey × Int)) (r : UsageRecord) :
    alookup (UpsertUsage t r) (requestsKey r) = some r.hits := by
  unfold UpsertUsage
  cases h : alookup t (requestsKey r) with
  | some v => simp
  | none =>
    rw [alookup_append_single, h]
    simp

theorem aset_append_fresh {κ α : Type} [DecidableEq κ]
    (l : List (κ × α)) (k : κ) (v w : α) (h : alookup l k = none) :
    aset (l ++ [(k, v)]) k w = l ++ [(k, w)] := by
  induction l with
  | nil => simp
  | cons hd t ih =>
    by_cases hk : hd.1 = k
    · simp [alookup_cons, hk] at h
    · simp only [alookup_cons, if_neg hk] at h
      simp [List.cons_append, hk, ih h]

theorem upsert_upsert_same_key (t : List (RequestsKey × Int)) (r r' : UsageRecord)
    (hkey : requestsKey r = requestsKey r') :
    UpsertUsage (UpsertUsage t r) r' = UpsertUsage t r' := by
  have hself : alookup (UpsertUsage t r) (requestsKey r') = some r.hits := by
    rw [← hkey]
    exact upsert_lookup_self t r
  conv_lhs => rw [UpsertUsage]
  rw [hself]
  cases h : alookup t (requestsKey r) with
  | some v =>
    conv_lhs => rw [UpsertUsage, h]
    rw [UpsertUsage]
    rw [← hkey]
    rw [h, aset_aset_same]
  | none =>
    conv_lhs => rw [UpsertUsage, h]
    rw [UpsertUsage]
    rw [← hkey]
    rw [h, aset_append_fresh _ _ _ _ h]

/-- C3: a second upsert with the same primary-key fields replaces the
stored `hits` — two upserts collapse to the second one, the surviving row
holds `r'.hits`, and repeating the same upsert is idempotent. -/
theorem upsertUsage_replaces_hits (t : List (RequestsKey × Int)) (r r' : UsageRecord)
    (h1 : r.date = r'.date) (h2 : r.nodeID = r'.nodeID) (h3 : r.domain = r'.domain)
    (h4 : r.memberName = r'.memberName) (h5 : r.asn = r'.asn)
    (h6 : r.networkName = r'.networkName) (h7 : r.countryCode = r'.countryCode)
    (h8 : r.countryName = r'.countryName) (h9 : r.isIPv6 = r'.isIPv6) :
    UpsertUsage (UpsertUsage t r) r' = UpsertUsage t r'
    ∧ alookup (UpsertUsage (UpsertUsage t r) r') (requestsKey r') = some r'.hits
    ∧ UpsertUsage (UpsertUsage t r) r = UpsertUsage t r := by
  have hkey : requestsKey r = requestsKey r' := by
    simp [requestsKey, h1, h2, h3, h4, h5, h6, h7, h8, h9]
  have hcollapse := upsert_upsert_same_key t r r' hkey
  refine ⟨hcollapse, ?_, upsert_upsert_same_key t r r rfl⟩
  rw [hcollapse]
  exact upsert_lookup_self _ _

/-- C3 witness: upserting hits=7 then hits=3 on the same key leaves one
row with hits=3, and repeating the hits=7 upsert changes nothing. -/
theorem upsertUsage_replaces_hits_witness :
    let r7 : UsageRecord :=
      { date := "2025-01-01", nodeID := "dns-1", domain := "d.example",
        memberName := "m1", asn := "AS1", networkName := "N1", countryCode := "US",
        countryName := "United States", isIPv6 := false, hits := 7 }
    let r3 : UsageRecord := { r7 with hits := 3 }
    r7.date = r3.date ∧ r7.nodeID = r3.nodeID ∧ r7.domain = r3.domain
    ∧ r7.memberName = r3.memberName ∧ r7.asn = r3.asn
    ∧ r7.networkName = r3.networkName ∧ r7.countryCode = r3.countryCode
    ∧ r7.countryName = r3.countryName ∧ r7.isIPv6 = r3.isIPv6
    ∧ (UpsertUsage (UpsertUsage [] r7) r3 = UpsertUsage [] r3
        ∧ alookup (UpsertUsage (UpsertUsage [] r7) r3) (requestsKey r3) = some r3.hits
        ∧ UpsertUsage (UpsertUsage [] r7) r7 = UpsertUsage [] r7) :=
  ⟨rfl, rfl, rfl, rfl, rfl, rfl, rfl, rfl, rfl,
   upsertUsage_replaces_hits [] _ _ rfl rfl rfl rfl rfl rfl rfl rfl rfl⟩

/-! ## C7: the usage responder always replies, but a fetch error carries
an empty Error string -/

def c7req : UsageRequest :=
  { startDate := "2025-01-01", endDate := "2025-01-02", domain := "", memberName := "",
    country := "" }

/-- C7 counterexample: on a local-fetch error the responder does reply on
the inbox with an empty record list, but the `Error` field of that reply
is the empty string, not a non-empty one. -/
theorem handleRequest_fetch_error_has_empty_error :
    HandleRequest "n1" "dns.usage.usageData" "inbox1" (some c7req)
        (fun _ => .error "db down")
      = some ("inbox1", { nodeID := "n1", usageRecords := [], error := "" }) := by
  rfl

/-- C7 (amended): with a non-empty reply inbox the responder always sends
a response; unmarshal errors and `StartDate > EndDate` produce an empty
record list with a non-empty `Error`, while a local-fetch error still
produces a (never dropped) reply with an empty record list but an empty
`Error` string. -/
theorem handleRequest_always_replies (nodeID subj reply : String)
    (parsed : Option UsageRequest) (fetch : UsageRequest → Except String (List UsageRecord))
    (hr : reply ≠ "") :
    ∃ resp : UsageResponse,
      HandleRequest nodeID subj reply parsed fetch = some (reply, resp)
      ∧ (parsed = none → resp.usageRecords = [] ∧ resp.error ≠ "")
      ∧ (∀ req, parsed = some req → stringGt req.startDate req.endDate = true →
          resp.usageRecords = [] ∧ resp.error ≠ "")
      ∧ (∀ req e, parsed = some req → stringGt req.startDate req.endDate = false →
          fetch req = .error e → resp.usageRecords = [] ∧ resp.error = "") := by
  cases parsed with
  | none =>
    refine ⟨{ nodeID := nodeID, usageRecords := [], error := "unmarshal error" },
      by simp [HandleRequest, hr], fun _ => ⟨rfl, by simp⟩, ?_, ?_⟩
    · intro req hpe
      exact absurd hpe (by simp)
    · intro req e hpe
      exact absurd hpe (by simp)
  | some req =>
    by_cases hlt : stringGt req.startDate req.endDate = true
    · refine ⟨{ nodeID := nodeID
                usageRecords := []
                error := "StartDate must be before or equal to EndDate" },
        by simp [HandleRequest, hr, hlt], ?_, fun _ _ _ => ⟨rfl, by simp⟩, ?_⟩
      · intro hpe
        exact absurd hpe (by simp)
      · intro req' e hpe hnlt
        obtain rfl : req = req' := by injection hpe
        rw [hlt] at hnlt
        exact absurd hnlt (by simp)
    · cases hfe : fetch req with
      | ok recs =>
        refine ⟨{ nodeID := nodeID, usageRecords := recs, error := "" },
          by simp [HandleRequest, hr, hlt, hfe], ?_, ?_, ?_⟩
        · intro hpe
          exact absurd hpe (by simp)
        · intro req' hpe hlt'
          obtain rfl : req = req' := by injection hpe
          exact absurd hlt' hlt
        · intro req' e hpe hnlt hfet
          obtain rfl : req = req' := by injection hpe
          rw [hfe] at hfet
          exact absurd hfet (by simp)
      | error e =>
        refine ⟨{ nodeID := nodeID, usageRecords := [], error := "" },
          by simp [HandleRequest, hr, hlt, hfe], ?_, ?_, fun _ _ _ _ _ => ⟨rfl, rfl⟩⟩
        · intro hpe
          exact absurd hpe (by simp)
        · intro req' hpe hlt'
          obtain rfl : req = req' := by injection hpe
          exact absurd hlt' hlt

/-- C7 witness for the amended statement, at the fetch-error input of the
counterexample. -/
theorem handleRequest_always_replies_witness :
    ("inbox1" : String) ≠ ""
    ∧ ∃ resp : UsageResponse,
        HandleRequest "n1" "dns.usage.usageData" "inbox1" (some c7req)
            (fun _ => .error "db down")
          = some ("inbox1", resp)
        ∧ ((some c7req : Option UsageRequest) = none →
            resp.usageRecords = [] ∧ resp.error ≠ "")
        ∧ (∀ req, (some c7req : Option UsageRequest) = some req →
            stringGt req.startDate req.endDate = true → resp.usageRecords = [] ∧ resp.error ≠ "")
        ∧ (∀ req e, (some c7req : Option UsageRequest) = some req →
            stringGt req.startDate req.endDate = false →
            (fun (_ : UsageRequest) => (.error "db down" : Except String (List UsageRecord))) req
              = .error e →
            resp.usageRecords = [] ∧ resp.error = "") :=
  ⟨by simp,
   handleRequest_always_replies "n1" "dns.usage.usageData" "inbox1" (some c7req)
     (fun _ => .error "db down") (by simp)⟩

/-! ## C4: single-announcer invariant of the outage notifier -/

/-- The inductive invariant of the dedup protocol for one outage key:
at most one successful send; once a send succeeded the entry stays
occupied with no announcer in flight; while an announcer is in flight the
entry holds the sentinel and nothing was sent yet. -/
def offlineInv (s : NotifierState) : Prop :=
  s.sentCount ≤ 1
  ∧ (s.sentCount = 1 → s.entry.isSome ∧ s.announcing = none)
  ∧ (s.announcing.isSome → s.sentCount = 0 ∧ s.entry = some "")

theorem offlineStep_inv (s : NotifierState) (a : OfflineAction)
    (h : offlineInv s) : offlineInv (offlineStep s a) := by
  obtain ⟨h1, h2, h3⟩ := h
  cases a with
  | start pid =>
    cases he : s.entry with
    | some v =>
      simp only [offlineStep, he]
      exact ⟨h1, h2, h3⟩
    | none =>
      simp only [offlineStep, he]
      have hs0 : s.sentCount = 0 := by
        rcases Nat.lt_or_ge s.sentCount 1 with h | h
        · omega
        · exfalso
          have hs1 : s.sentCount = 1 := by omega
          have := (h2 hs1).1
          rw [he] at this
          simp at this
      refine ⟨by simp [hs0], ?_, ?_⟩
      · intro hc
        simp [hs0] at hc
      · intro _
        exact ⟨hs0, rfl⟩
  | finish pid outcome =>
    by_cases ha : s.announcing = some pid
    · have hsome : s.announcing.isSome := by rw [ha]; rfl
      obtain ⟨hs0, hse⟩ := h3 hsome
      cases outcome with
      | some ev =>
        simp only [offlineStep, if_pos ha]
        refine ⟨?_, ?_, ?_⟩
        · show s.sentCount + 1 ≤ 1
          omega
        · intro _
          exact ⟨rfl, rfl⟩
        · intro hcontra
          simp at hcontra
      | none =>
        simp only [offlineStep, if_pos ha]
        refine ⟨?_, ?_, ?_⟩
        · show s.sentCount ≤ 1
          omega
        · intro hc
          have hc' : s.sentCount = 1 := hc
          omega
        · intro hcontra
          simp at hcontra
    · simp only [offlineStep, if_neg ha]
      exact ⟨h1, h2, h3⟩

theorem offlineRun_inv (acts : List OfflineAction) (s : NotifierState)
    (h : offlineInv s) : offlineInv (acts.foldl offlineStep s) := by
  induction acts generalizing s with
  | nil => exact h
  | cons a t ih => exact ih _ (offlineStep_inv s a h)

/-- C4: for one outage key, across any interleaving of
`NotifyMemberOffline` calls with no intervening `NotifyMemberOnline`, at
most one OFFLINE message is successfully sent: losers of the
`LoadOrStore` return without sending, the announcer stores the
`MessageID` on success (blocking all later calls) and deletes the key on
failure (allowing a retry). -/
theorem notifyMemberOffline_single_send (acts : List OfflineAction) :
    (runOffline acts).sentCount ≤ 1 :=
  (offlineRun_inv acts initNotifier
    ⟨by simp [initNotifier], by simp [initNotifier], by simp [initNotifier]⟩).1

/-! ## C5: scatter/gather dedup and hit-summing aggregation -/

/-- Total hits carried by the records with aggregation key `k`. -/
def sumHitsL (k : String) (recs : List UsageRecord) : Int :=
  ((recs.filter (fun r => recKey r == k)).map UsageRecord.hits).sum

/-- Total hits stored in the aggregate map under key `k`. -/
def sumHitsAgg (k : String) (agg : List (String × UsageRecord)) : Int :=
  ((agg.filter (fun p => p.1 == k)).map (fun p => p.2.hits)).sum

theorem sumHitsL_cons (k : String) (r : UsageRecord) (t : List UsageRecord) :
    sumHitsL k (r :: t) = (if recKey r = k then r.hits else 0) + sumHitsL k t := by
  simp only [sumHitsL, List.filter_cons]
  by_cases h : recKey r = k
  · simp [h]
  · simp [h]

theorem sumHitsL_append (k : String) (l1 l2 : List UsageRecord) :
    sumHitsL k (l1 ++ l2) = sumHitsL k l1 + sumHitsL k l2 := by
  simp [sumHitsL, List.filter_append]

theorem sumHitsAgg_cons (k : String) (p : String × UsageRecord)
    (t : List (String × UsageRecord)) :
    sumHitsAgg k (p :: t) = (if p.1 = k then p.2.hits else 0) + sumHitsAgg k t := by
  simp only [sumHitsAgg, List.filter_cons]
  by_cases h : p.1 = k
  · simp [h]
  · simp [h]

theorem sumHitsAgg_aset (agg : List (String × UsageRecord)) (k0 k : String)
    (v w : UsageRecord) (h : alookup agg k0 = some w) :
    sumHitsAgg k (aset agg k0 v)
      = sumHitsAgg k agg + (if k0 = k then v.hits - w.hits else 0) := by
  induction agg with
  | nil => simp at h
  | cons hd t ih =>
    by_cases hk0 : hd.1 = k0
    · simp only [alookup_cons, if_pos hk0] at h
      obtain rfl : hd.2 = w := Option.some.inj h
      rw [aset_cons, if_pos hk0, sumHitsAgg_cons, sumHitsAgg_cons, hk0]
      by_cases hk : k0 = k
      · simp only [if_pos hk]
        omega
      · simp only [if_neg hk]
        omega
    · simp only [alookup_cons, if_neg hk0] at h
      rw [aset_cons, if_neg hk0, sumHitsAgg_cons, sumHitsAgg_cons, ih h]
      omega

theorem sumHitsAgg_append_single (agg : List (String × UsageRecord)) (k0 k : String)
    (v : UsageRecord) :
    sumHitsAgg k (agg ++ [(k0, v)])
      = sumHitsAgg k agg + (if k0 = k then v.hits else 0) := by
  induction agg with
  | nil =>
    simp only [List.nil_append, sumHitsAgg_cons]
    simp [sumHitsAgg]
  | cons hd t ih =>
    rw [List.cons_append, sumHitsAgg_cons, sumHitsAgg_cons, ih]
    omega

theorem sumHitsAgg_addRec (agg : List (String × UsageRecord)) (r : UsageRecord)
    (k : String) :
    sumHitsAgg k (addRecToAggregate agg r)
      = sumHitsAgg k agg + (if recKey r = k then r.hits else 0) := by
  unfold addRecToAggregate
  cases h : alookup agg (recKey r) with
  | some existing =>
    rw [sumHitsAgg_aset agg (recKey r) k _ existing h]
    by_cases hk : recKey r = k
    · simp only [if_pos hk]
      have : ({ existing with hits := existing.hits + r.hits } : UsageRecord).hits
          = existing.hits + r.hits := rfl
      omega
    · simp only [if_neg hk]
  | none =>
    rw [sumHitsAgg_append_single]

theorem sumHitsAgg_foldRecords (recs : List UsageRecord)
    (agg : List (String × UsageRecord)) (k : String) :
    sumHitsAgg k (recs.foldl addRecToAggregate agg)
      = sumHitsAgg k agg + sumHitsL k recs := by
  induction recs generalizing agg with
  | nil => simp [sumHitsL]
  | cons r t ih =>
    rw [List.foldl_cons, ih, sumHitsAgg_addRec, sumHitsL_cons]
    omega

theorem sumHitsAgg_aggregate_aux (m : List (String × List UsageRecord))
    (agg : List (String × UsageRecord)) (k : String) :
    sumHitsAgg k (m.foldl (fun agg entry => entry.2.foldl addRecToAggregate agg) agg)
      = sumHitsAgg k agg + sumHitsL k ((m.map Prod.snd).flatten) := by
  induction m generalizing agg with
  | nil => simp [sumHitsL]
  | cons e t ih =>
    rw [List.foldl_cons, ih, sumHitsAgg_foldRecords]
    simp only [List.map_cons, List.flatten_cons, sumHitsL_append]
    omega

/-- Every entry of the aggregate map stores a record under its own key. -/
def aggWF (agg : List (String × UsageRecord)) : Prop :=
  ∀ p ∈ agg, recKey p.2 = p.1

theorem alookup_mem {κ α : Type} [DecidableEq κ]
    (l : List (κ × α)) (k : κ) (v : α) (h : alookup l k = some v) : (k, v) ∈ l := by
  induction l with
  | nil => simp at h
  | cons hd t ih =>
    by_cases hk : hd.1 = k
    · simp only [alookup_cons, if_pos hk] at h
      obtain rfl := Option.some.inj h
      have hpair : (k, hd.2) = hd := by rw [← hk]
      rw [hpair]
      exact List.mem_cons_self _ _
    · simp only [alookup_cons, if_neg hk] at h
      exact List.mem_cons_of_mem _ (ih h)

theorem mem_aset {κ α : Type} [DecidableEq κ]
    (l : List (κ × α)) (k : κ) (v : α) (p : κ × α) (h : p ∈ aset l k v) :
    p ∈ l ∨ p = (k, v) := by
  induction l with
  | nil =>
    simp [aset] at h
    right
    exact h
  | cons hd t ih =>
    by_cases hk : hd.1 = k
    · rw [aset_cons, if_pos hk] at h
      rw [List.mem_cons] at h
      rcases h with h | h
      · right
        exact h
      · left
        exact List.mem_cons_of_mem _ h
    · rw [aset_cons, if_neg hk] at h
      rw [List.mem_cons] at h
      rcases h with h | h
      · left
        exact h ▸ List.mem_cons_self _ _
      · rcases ih h with h' | h'
        · left
          exact List.mem_cons_of_mem _ h'
        · right
          exact h'

theorem aggWF_addRec (agg : List (String × UsageRecord)) (r : UsageRecord)
    (h : aggWF agg) : aggWF (addRecToAggregate agg r) := by
  unfold addRecToAggregate
  cases hl : alookup agg (recKey r) with
  | some existing =>
    intro p hp
    rcases mem_aset _ _ _ _ hp with hm | hm
    · exact h p hm
    · subst hm
      have hex : recKey existing = recKey r := h (recKey r, existing) (alookup_mem _ _ _ hl)
      exact hex
  | none =>
    intro p hp
    rcases List.mem_append.1 hp with hm | hm
    · exact h p hm
    · simp at hm
      subst hm
      rfl

theorem aggKeys_addRec (agg : List (String × UsageRecord)) (r : UsageRecord)
    (h : (agg.map Prod.fst).Nodup) :
    ((addRecToAggregate agg r).map Prod.fst).Nodup := by
  unfold addRecToAggregate
  cases hl : alookup agg (recKey r) with
  | some existing =>
    rw [aset_keys_of_lookup_some _ _ _ _ hl]
    exact h
  | none =>
    have hni := alookup_none_not_mem_keys _ _ hl
    rw [List.map_append]
    refine List.Nodup.append h (by simp) ?_
    intro x hx hmem
    simp only [List.map_cons, List.map_nil, List.mem_singleton] at hmem
    subst hmem
    exact hni hx

theorem aggInv_foldRecords (recs : List UsageRecord) (agg : List (String × UsageRecord))
    (h : aggWF agg ∧ (agg.map Prod.fst).Nodup) :
    aggWF (recs.foldl addRecToAggregate agg)
      ∧ ((recs.foldl addRecToAggregate agg).map Prod.fst).Nodup := by
  induction recs generalizing agg with
  | nil => exact h
  | cons r t ih =>
    exact ih _ ⟨aggWF_addRec _ _ h.1, aggKeys_addRec _ _ h.2⟩

theorem aggInv_aggregate (m : List (String × List UsageRecord)) :
    aggWF (aggregateUsage m) ∧ ((aggregateUsage m).map Prod.fst).Nodup := by
  unfold aggregateUsage
  suffices hgen : ∀ agg, aggWF agg ∧ (agg.map Prod.fst).Nodup →
      aggWF (m.foldl (fun agg entry => entry.2.foldl addRecToAggregate agg) agg)
        ∧ ((m.foldl (fun agg entry => entry.2.foldl addRecToAggregate agg) agg).map
            Prod.fst).Nodup by
    exact hgen [] ⟨by intro p hp; simp at hp, by simp⟩
  induction m with
  | nil => exact fun agg h => h
  | cons e t ih =>
    intro agg h
    exact ih _ (aggInv_foldRecords e.2 agg h)

theorem sumHitsL_values (agg : List (String × UsageRecord)) (k : String)
    (h : aggWF agg) : sumHitsL k (agg.map Prod.snd) = sumHitsAgg k agg := by
  induction agg with
  | nil => simp [sumHitsL, sumHitsAgg]
  | cons hd t ih =>
    rw [List.map_cons, sumHitsL_cons, sumHitsAgg_cons,
      h hd (List.mem_cons_self _ _),
      ih (fun p hp => h p (List.mem_cons_of_mem _ hp))]

theorem collect_aux (rs : List UsageResponse) (nid : String)
    (m : List (String × List UsageRecord)) :
    alookup
      (rs.foldl
        (fun m resp =>
          if (alookup m resp.nodeID).isSome then m
          else m ++ [(resp.nodeID, resp.usageRecords)]) m) nid
      = match alookup m nid with
        | some v => some v
        | none => (rs.find? (fun r => r.nodeID == nid)).map UsageResponse.usageRecords := by
  induction rs generalizing m with
  | nil =>
    cases h : alookup m nid <;> simp [h]
  | cons r t ih =>
    rw [List.foldl_cons]
    by_cases hr : (alookup m r.nodeID).isSome
    · rw [if_pos hr, ih]
      cases hm : alookup m nid with
      | some v => simp
      | none =>
        by_cases hp : r.nodeID = nid
        · exfalso
          rw [hp, hm] at hr
          simp at hr
        · rw [List.find?_cons_of_neg _ (by simp [hp])]
    · rw [if_neg hr, ih]
      have hmnone : alookup m r.nodeID = none := by
        cases h : alookup m r.nodeID
        · rfl
        · rw [h] at hr
          simp at hr
      rw [alookup_append_single]
      cases hm : alookup m nid with
      | some v => simp
      | none =>
        by_cases hp : r.nodeID = nid
        · rw [List.find?_cons_of_pos _ (by simp [hp])]
          simp [hp]
        · rw [List.find?_cons_of_neg _ (by simp [hp])]
          simp [hp]

theorem collectResponses_first_wins (rs : List UsageResponse) (nid : String) :
    alookup (collectResponses rs) nid
      = (rs.find? (fun r => r.nodeID == nid)).map UsageResponse.usageRecords := by
  unfold collectResponses
  rw [collect_aux]
  simp

/-- C5 fixtures: the two-node example of the spec. -/
def d1rec : UsageRecord :=
  { date := "2025-01-01", nodeID := "", domain := "d.example", memberName := "m1",
    asn := "AS1", networkName := "N1", countryCode := "US",
    countryName := "United States", isIPv6 := false, hits := 7 }

def d2rec : UsageRecord := { d1rec with hits := 5 }

/-- C5: in the usage scatter/gather, only the first response per origin
`NodeID` is kept, the aggregate holds at most one record per aggregation
key, the total hits per key equal the sum over all kept records, and the
two-node example `{hits=7}`/`{hits=5}` merges into one record with
`hits=12`. -/
theorem requestAll_dedup_and_sum (rs : List UsageResponse) (k nid : String) :
    sumHitsL k (RequestAllAggregate rs)
      = sumHitsL k (((collectResponses rs).map Prod.snd).flatten)
    ∧ ((aggregateUsage (collectResponses rs)).map Prod.fst).Nodup
    ∧ alookup (collectResponses rs) nid
        = (rs.find? (fun r => r.nodeID == nid)).map UsageResponse.usageRecords
    ∧ RequestAllAggregate
        [{ nodeID := "D1", usageRecords := [d1rec], error := "" },
         { nodeID := "D2", usageRecords := [d2rec], error := "" }]
      = [{ d1rec with hits := 12 }] := by
  obtain ⟨hwf, hnd⟩ := aggInv_aggregate (collectResponses rs)
  refine ⟨?_, hnd, collectResponses_first_wins rs nid, by rfl⟩
  unfold RequestAllAggregate
  rw [sumHitsL_values _ _ hwf]
  unfold aggregateUsage
  rw [sumHitsAgg_aggregate_aux]
  simp [sumHitsAgg]

end IbpGeoDns
